import Mathlib

/-!
Verification of the mouse-trail module of `src/assets/js/main.js`
(section "9. MOUSE TRAIL EFFECT", duplicated in the annotated copy).

The JavaScript state consists of the point list `points`, the timestamp
`lastMove`, and constants `maxTrail = 30`, `trailIdleTimeout = 100`,
`trailFadeDuration = 250`.  Times and coordinates are JS numbers doing
small exact arithmetic; we embed them as rationals.  Canvas side effects
are embedded as an emitted command list.
-/

namespace Trail

/-- A recorded pointer position, `{ x: e.clientX, y: e.clientY }`. -/
structure Point where
  x : ℚ
  y : ℚ
deriving DecidableEq, Repr

/-- The module's mutable trail state: `points` (oldest first) and `lastMove`. -/
structure TrailState where
  points : List Point
  lastMove : ℚ
deriving DecidableEq, Repr

/-- `const maxTrail = 30`. -/
def maxTrail : ℕ := 30

/-- `const trailIdleTimeout = 100` (ms of inactivity before starting fade). -/
def trailIdleTimeout : ℚ := 100

/-- `const trailFadeDuration = 250` (ms duration of fade to fully vanish). -/
def trailFadeDuration : ℚ := 250

/-- The `mousemove` listener body:
`lastMove = performance.now(); points.push({x, y});
 if (points.length > maxTrail) { points.shift(); }`.
`push` appends at the end; `shift` removes the head (oldest). -/
def record (s : TrailState) (now : ℚ) (p : Point) : TrailState :=
  let pts := s.points ++ [p]
  { points := if pts.length > maxTrail then pts.tail else pts
    lastMove := now }

/-- Fold of `record` over a sequence of timestamped mousemove events. -/
def recordAll (s : TrailState) (evs : List (ℚ × Point)) : TrailState :=
  evs.foldl (fun st e => record st e.1 e.2) s

/-- The fade computation inside `draw`:
`let fadeProgress = 0;
 if (idle > trailIdleTimeout) {
   fadeProgress = Math.min((idle - trailIdleTimeout) / trailFadeDuration, 1); }`. -/
def fadeProgress (idle : ℚ) : ℚ :=
  if idle > trailIdleTimeout then
    min ((idle - trailIdleTimeout) / trailFadeDuration) 1
  else 0

/-- Canvas-context effects issued by `draw`, in order: the full-surface
`ctx.clearRect(0, 0, canvas.width, canvas.height)` and each
`ctx.stroke()` of a segment from `p1` to `p2` with the alpha used in
`ctx.strokeStyle = rgba(255, 0, 0, alpha)`. -/
inductive Cmd where
  | clearRect : ℚ → ℚ → Cmd
  | stroke : Point → Point → ℚ → Cmd
deriving DecidableEq, Repr

/-- The drawing loop
`for (let i = 1; i < points.length; i++)` with
`baseAlpha = i / points.length; alpha = baseAlpha * (1 - fadeProgress)`,
stroking from `points[i-1]` to `points[i]`. -/
def segCmds (pts : List Point) (fade : ℚ) : List Cmd :=
  ((List.range pts.length).drop 1).map fun i =>
    Cmd.stroke (pts.getD (i - 1) ⟨0, 0⟩) (pts.getD i ⟨0, 0⟩)
      (((i : ℚ) / (pts.length : ℚ)) * (1 - fade))

/-- The body of `function draw()` (minus the self-rescheduling
`requestAnimationFrame(draw)`), returning the updated state and the
emitted canvas commands:
1. `ctx.clearRect(0, 0, canvas.width, canvas.height)`;
2. `if (points.length < 2) return;`
3. `idle = now - lastMove`; compute `fadeProgress`;
4. `if (fadeProgress >= 1) { points = []; return; }`
5. otherwise stroke each consecutive pair. -/
def draw (s : TrailState) (now w h : ℚ) : TrailState × List Cmd :=
  if s.points.length < 2 then (s, [Cmd.clearRect w h])
  else if fadeProgress (now - s.lastMove) ≥ 1 then
    ({ s with points := [] }, [Cmd.clearRect w h])
  else (s, Cmd.clearRect w h :: segCmds s.points (fadeProgress (now - s.lastMove)))

/-- The `trailCanvas` element, carrying its pixel dimensions. -/
structure CanvasState where
  width : ℚ
  height : ℚ
deriving DecidableEq, Repr

/-- Whole-module state: the canvas element plus the trail state. -/
structure FullState where
  canvas : CanvasState
  trail : TrailState
deriving DecidableEq, Repr

/-- `function resize() { canvas.width = window.innerWidth;
canvas.height = window.innerHeight; }` — the `resize` listener, given the
current viewport dimensions.  It touches neither `points` nor `lastMove`. -/
def resizeEvent (s : FullState) (vw vh : ℚ) : FullState :=
  { s with canvas := { width := vw, height := vh } }

/-- The `mousemove` listener at module level: it mutates only the trail
state, never the canvas element. -/
def mousemoveEvent (s : FullState) (now : ℚ) (p : Point) : FullState :=
  { s with trail := record s.trail now p }

/-- The module's startup lines
`const canvas = document.getElementById("trailCanvas");
 const ctx = canvas.getContext("2d");` —
`getElementById` yields `none` when no element with id `trailCanvas`
exists, and the member access `canvas.getContext` on `null` throws a
`TypeError`, embedded as `Except.error`.  On success the canvas element is
returned for the rest of the module to use. -/
def initTrail (lookup : Option CanvasState) : Except String CanvasState :=
  match lookup with
  | none => .error "TypeError: Cannot read properties of null (reading getContext)"
  | some c => .ok c

/-- The spec's clamp operator: `clamp(x, lo, hi)`. -/
def clamp (x lo hi : ℚ) : ℚ := max lo (min x hi)

/-- The spec's fade formula, stated as written there:
`fadeProgress = clamp((idle - idleThreshold) / fadeDuration, 0, 1)`. -/
def fadeProgressSpec (idle : ℚ) : ℚ :=
  clamp ((idle - trailIdleTimeout) / trailFadeDuration) 0 1

lemma fade_nonneg (idle : ℚ) : 0 ≤ fadeProgress idle := by
  unfold fadeProgress
  split
  · exact le_min (div_nonneg (by linarith) (by norm_num [trailFadeDuration])) zero_le_one
  · exact le_refl 0

lemma fade_le_one (idle : ℚ) : fadeProgress idle ≤ 1 := by
  unfold fadeProgress
  split
  · exact min_le_right _ _
  · exact zero_le_one

lemma fade_eq_zero_of_le (idle : ℚ) (h : idle ≤ trailIdleTimeout) :
    fadeProgress idle = 0 := by
  unfold fadeProgress
  rw [if_neg (not_lt.mpr h)]

lemma fade_eq_one_of_ge (idle : ℚ)
    (h : trailIdleTimeout + trailFadeDuration ≤ idle) : fadeProgress idle = 1 := by
  have hT : trailIdleTimeout < idle := by
    unfold trailIdleTimeout trailFadeDuration at *; linarith
  unfold fadeProgress
  rw [if_pos hT, min_eq_right]
  rw [one_le_div (by norm_num [trailFadeDuration] : (0:ℚ) < trailFadeDuration)]
  unfold trailIdleTimeout trailFadeDuration at *; linarith

lemma fade_eq_clamp (idle : ℚ) : fadeProgress idle = fadeProgressSpec idle := by
  unfold fadeProgress fadeProgressSpec clamp
  rcases le_or_lt idle trailIdleTimeout with h | h
  · rw [if_neg (not_lt.mpr h)]
    have ha : (idle - trailIdleTimeout) / trailFadeDuration ≤ 0 :=
      div_nonpos_of_nonpos_of_nonneg (by linarith) (by norm_num [trailFadeDuration])
    rw [min_eq_left (ha.trans zero_le_one), max_eq_left ha]
  · rw [if_pos h, max_eq_right]
    exact le_min (div_nonneg (by linarith) (by norm_num [trailFadeDuration])) zero_le_one

lemma fade_mono : Monotone fadeProgress := by
  intro i1 i2 h
  rcases le_or_lt i1 trailIdleTimeout with h1 | h1
  · rw [fade_eq_zero_of_le i1 h1]
    exact fade_nonneg i2
  · unfold fadeProgress
    rw [if_pos h1, if_pos (h1.trans_le h)]
    refine min_le_min ?_ le_rfl
    have hD : (0:ℚ) ≤ trailFadeDuration := by norm_num [trailFadeDuration]
    gcongr

lemma record_points (s : TrailState) (now : ℚ) (p : Point) :
    (record s now p).points =
      if s.points.length + 1 > maxTrail then (s.points ++ [p]).tail
      else s.points ++ [p] := by
  simp [record]

lemma recordAll_cons (s : TrailState) (e : ℚ × Point) (evs : List (ℚ × Point)) :
    recordAll s (e :: evs) = recordAll (record s e.1 e.2) evs := rfl

lemma record_lastMove (s : TrailState) (now : ℚ) (p : Point) :
    (record s now p).lastMove = now := rfl

/-- Running the mousemove handler over a sequence of events keeps, of the
initial buffer followed by all recorded positions, exactly everything past
the point where the length bound would be exceeded. -/
lemma recordAll_points_drop (evs : List (ℚ × Point)) :
    ∀ s : TrailState, s.points.length ≤ maxTrail →
      (recordAll s evs).points =
        (s.points ++ evs.map Prod.snd).drop (s.points.length + evs.length - maxTrail) := by
  induction evs with
  | nil =>
    intro s h
    simp [recordAll, Nat.sub_eq_zero_of_le h]
  | cons e rest ih =>
    intro s h
    rw [recordAll_cons]
    rcases Nat.lt_or_ge s.points.length maxTrail with hlt | hge
    · have hrec : (record s e.1 e.2).points = s.points ++ [e.2] := by
        rw [record_points, if_neg (by omega)]
      have hside : (record s e.1 e.2).points.length ≤ maxTrail := by
        rw [hrec]
        simp only [List.length_append, List.length_singleton, List.length_cons, List.length_nil]
        omega
      rw [ih _ hside, hrec]
      have hidx : (s.points ++ [e.2]).length + rest.length - maxTrail =
          s.points.length + (e :: rest).length - maxTrail := by
        simp only [List.length_append, List.length_singleton, List.length_cons, List.length_nil]
        omega
      rw [hidx, List.append_assoc, List.singleton_append, List.map_cons]
    · have heq : s.points.length = maxTrail := le_antisymm h hge
      have hne : s.points ≠ [] := by
        intro hnil
        rw [hnil] at heq
        simp [maxTrail] at heq
      have hpos : 0 < s.points.length := List.length_pos.mpr hne
      have hrec : (record s e.1 e.2).points = s.points.tail ++ [e.2] := by
        rw [record_points, if_pos (by omega), List.tail_append_of_ne_nil hne]
      have hside : (record s e.1 e.2).points.length ≤ maxTrail := by
        rw [hrec]
        simp only [List.length_append, List.length_singleton, List.length_cons, List.length_nil, List.length_tail]
        omega
      rw [ih _ hside, hrec]
      have htail : (s.points.tail ++ [e.2]) ++ (rest.map Prod.snd) =
          (s.points ++ e.2 :: rest.map Prod.snd).tail := by
        rw [List.tail_append_of_ne_nil hne, List.append_assoc, List.singleton_append]
      have hidx : (s.points.tail ++ [e.2]).length + rest.length - maxTrail =
          rest.length := by
        simp only [List.length_append, List.length_singleton, List.length_cons, List.length_nil, List.length_tail]
        omega
      have hidx2 : s.points.length + (e :: rest).length - maxTrail =
          1 + rest.length := by
        simp only [List.length_cons]
        omega
      rw [htail, hidx, hidx2, List.map_cons, ← List.drop_one, List.drop_drop]

/-- Claim C2: for every sequence of mousemove events starting from the
empty startup buffer, the buffer length never exceeds `maxTrail = 30`, and
the buffer holds exactly the most recent `maxTrail` recorded points in
their original relative order (oldest evicted first). -/
theorem C2_trail_buffer_fifo_bound (t0 : ℚ) (evs : List (ℚ × Point)) :
    (recordAll ⟨[], t0⟩ evs).points =
      (evs.map Prod.snd).drop (evs.length - maxTrail) ∧
    (recordAll ⟨[], t0⟩ evs).points.length ≤ maxTrail := by
  have h := recordAll_points_drop evs ⟨[], t0⟩ (by simp [maxTrail])
  simp only [List.nil_append, List.length_nil, Nat.zero_add] at h
  refine ⟨h, ?_⟩
  rw [h, List.length_drop, List.length_map]
  omega

/-- Claim C5: the fade computation in `draw` agrees with the spec's
`clamp((idle - idleThreshold) / fadeDuration, 0, 1)`, is exactly `0` when
`idle ≤ idleThreshold` and exactly `1` when
`idle ≥ idleThreshold + fadeDuration`. -/
theorem C5_fadeProgress_formula (idle : ℚ) :
    fadeProgress idle = fadeProgressSpec idle ∧
    (idle ≤ trailIdleTimeout → fadeProgress idle = 0) ∧
    (trailIdleTimeout + trailFadeDuration ≤ idle → fadeProgress idle = 1) :=
  ⟨fade_eq_clamp idle, fade_eq_zero_of_le idle, fade_eq_one_of_ge idle⟩

/-- Witness for C5 at idle times 50 and 350. -/
theorem C5_witness : fadeProgress 50 = 0 ∧ fadeProgress 350 = 1 :=
  ⟨(C5_fadeProgress_formula 50).2.1 (by norm_num [trailIdleTimeout]),
   (C5_fadeProgress_formula 350).2.2 (by norm_num [trailIdleTimeout, trailFadeDuration])⟩

/-- Claim C6: for the fixed constants `trailIdleTimeout` and
`trailFadeDuration`, fadeProgress is a monotonically non-decreasing
function of the idle time. -/
theorem C6_fadeProgress_monotone (i1 i2 : ℚ) (h : i1 ≤ i2) :
    fadeProgress i1 ≤ fadeProgress i2 := fade_mono h

/-- Witness for C6 at idle times 0 and 200. -/
theorem C6_witness : fadeProgress 0 ≤ fadeProgress 200 :=
  C6_fadeProgress_monotone 0 200 (by norm_num)

/-- Claim C7: every `draw` call issues the full-surface clear as its first
canvas command, and when the buffer holds fewer than 2 points it stops
there, drawing no segments and leaving the state unchanged. -/
theorem C7_clear_first_short_buffer (s : TrailState) (now w h : ℚ) :
    (draw s now w h).2.head? = some (Cmd.clearRect w h) ∧
    (s.points.length < 2 →
      (draw s now w h).2 = [Cmd.clearRect w h] ∧ (draw s now w h).1 = s) := by
  unfold draw
  split
  · exact ⟨rfl, fun _ => ⟨rfl, rfl⟩⟩
  · rename_i hlen
    split
    · exact ⟨rfl, fun hk => absurd hk hlen⟩
    · exact ⟨rfl, fun hk => absurd hk hlen⟩

/-- Witness for C7 with a one-point buffer. -/
theorem C7_witness :
    (draw ⟨[⟨0, 0⟩], 0⟩ 0 800 600).2 = [Cmd.clearRect 800 600] ∧
    (draw ⟨[⟨0, 0⟩], 0⟩ 0 800 600).1 = ⟨[⟨0, 0⟩], 0⟩ :=
  (C7_clear_first_short_buffer ⟨[⟨0, 0⟩], 0⟩ 0 800 600).2 (by decide)

/-- Claim C10: `draw` never modifies `lastMove`; it modifies `points` only
by emptying it in the `fadeProgress ≥ 1` branch; when the buffer holds
fewer than 2 points it returns before the fade check leaving all state
unchanged, so a single stale point is never emptied. -/
theorem C10_render_readonly (s : TrailState) (now w h : ℚ) :
    (draw s now w h).1.lastMove = s.lastMove ∧
    (s.points.length < 2 → (draw s now w h).1 = s) ∧
    (fadeProgress (now - s.lastMove) < 1 → (draw s now w h).1 = s) ∧
    ((draw s now w h).1.points = s.points ∨ (draw s now w h).1.points = []) ∧
    (s.points.length = 1 → (draw s now w h).1.points = s.points) := by
  unfold draw
  split
  · exact ⟨rfl, fun _ => rfl, fun _ => rfl, Or.inl rfl, fun _ => rfl⟩
  · rename_i hlen
    split
    · rename_i hfade
      refine ⟨rfl, fun hk => absurd hk hlen, fun hlt => absurd hfade (not_le.mpr hlt),
        Or.inr rfl, fun h1 => absurd (h1 ▸ (by norm_num : (1:ℕ) < 2)) hlen⟩
    · exact ⟨rfl, fun _ => rfl, fun _ => rfl, Or.inl rfl, fun _ => rfl⟩

/-- Witness for C10 with a fresh one-point buffer. -/
theorem C10_witness :
    (draw ⟨[⟨0, 0⟩], 0⟩ 0 800 600).1.lastMove = 0 ∧
    (draw ⟨[⟨0, 0⟩], 0⟩ 0 800 600).1 = ⟨[⟨0, 0⟩], 0⟩ ∧
    (draw ⟨[⟨0, 0⟩], 0⟩ 0 800 600).1.points = [⟨0, 0⟩] := by
  have h := C10_render_readonly ⟨[⟨0, 0⟩], 0⟩ 0 800 600
  exact ⟨h.1, h.2.2.1 (by norm_num [fadeProgress, trailIdleTimeout]),
    h.2.2.2.2 (by decide)⟩

/-- Claim C4: whenever `draw` strokes (buffer length at least 2 and
fadeProgress below 1), it emits, after the clear, one stroke per
consecutive pair `(p[i-1], p[i])` for `i` from 1 to length-1, the stroke
at position `i` carrying opacity `(i / length) * (1 - fadeProgress)`,
which lies in `[0, 1]`. -/
theorem C4_segment_opacity (s : TrailState) (now w h : ℚ)
    (hlen : 2 ≤ s.points.length) (hfade : fadeProgress (now - s.lastMove) < 1) :
    (draw s now w h).2 =
      Cmd.clearRect w h :: segCmds s.points (fadeProgress (now - s.lastMove)) ∧
    ∀ i : ℕ, 1 ≤ i → i < s.points.length →
      (segCmds s.points (fadeProgress (now - s.lastMove)))[i - 1]? =
        some (Cmd.stroke (s.points.getD (i - 1) ⟨0, 0⟩) (s.points.getD i ⟨0, 0⟩)
          (((i : ℚ) / (s.points.length : ℚ)) * (1 - fadeProgress (now - s.lastMove)))) ∧
      0 ≤ ((i : ℚ) / (s.points.length : ℚ)) * (1 - fadeProgress (now - s.lastMove)) ∧
      ((i : ℚ) / (s.points.length : ℚ)) * (1 - fadeProgress (now - s.lastMove)) ≤ 1 := by
  constructor
  · unfold draw
    rw [if_neg (not_lt.mpr hlen), if_neg (not_le.mpr hfade)]
  · intro i h1 hi
    have hlenpos : (0:ℚ) < (s.points.length : ℚ) := by exact_mod_cast by omega
    have hf0 := fade_nonneg (now - s.lastMove)
    refine ⟨?_, ?_, ?_⟩
    · have hidx : 1 + (i - 1) = i := by omega
      simp only [segCmds, List.getElem?_map, List.getElem?_drop, hidx,
        List.getElem?_range, hi, if_pos, Option.map_some']
    · exact mul_nonneg (div_nonneg (by positivity) hlenpos.le) (by linarith)
    · refine mul_le_one₀ ?_ (by linarith) (by linarith [fade_le_one (now - s.lastMove)])
      rw [div_le_one hlenpos]
      exact_mod_cast hi.le

/-- Witness for C4: the spec scenario of points (0,0), (10,0), (20,0)
rendered at idle time 10 gives fadeProgress 0 and exactly two strokes
with alphas 1/3 and 2/3. -/
theorem C4_witness :
    (draw ⟨[⟨0, 0⟩, ⟨10, 0⟩, ⟨20, 0⟩], 0⟩ 10 800 600).2 =
      [Cmd.clearRect 800 600, Cmd.stroke ⟨0, 0⟩ ⟨10, 0⟩ (1/3),
        Cmd.stroke ⟨10, 0⟩ ⟨20, 0⟩ (2/3)] ∧
    fadeProgress (10 - (0:ℚ)) = 0 := by
  have hf : fadeProgress (10 - (0:ℚ)) = 0 := by
    norm_num [fadeProgress, trailIdleTimeout]
  have h := C4_segment_opacity ⟨[⟨0, 0⟩, ⟨10, 0⟩, ⟨20, 0⟩], 0⟩ 10 800 600 (by decide)
    (by rw [hf]; norm_num)
  refine ⟨?_, hf⟩
  rw [h.1, hf]
  norm_num [segCmds, List.range_succ]

/-- Counterexample to claim C1 as stated: record a single point at time 0,
render at time `idleThreshold + fadeDuration + 1 = 351`; the render
returns at the length check, so the buffer still holds the point instead
of becoming empty. -/
theorem C1_counterexample :
    trailIdleTimeout + trailFadeDuration + 1 ≤ 351 - 0 ∧
    (draw (record ⟨[], 0⟩ 0 ⟨5, 5⟩) 351 800 600).1.points ≠ [] := by
  constructor
  · norm_num [trailIdleTimeout, trailFadeDuration]
  · norm_num [record, maxTrail, draw]

/-- Claim C1 as amended: for every `draw` call at which the buffer holds
at least 2 points and the idle time is at least
`idleThreshold + fadeDuration`, fadeProgress equals 1 and the render
empties the buffer and stops with no stroke issued. -/
theorem C1_fade_one_empties (s : TrailState) (now w h : ℚ)
    (hlen : 2 ≤ s.points.length)
    (hidle : trailIdleTimeout + trailFadeDuration ≤ now - s.lastMove) :
    fadeProgress (now - s.lastMove) = 1 ∧
    (draw s now w h).1.points = [] ∧
    (draw s now w h).2 = [Cmd.clearRect w h] := by
  have hf := fade_eq_one_of_ge _ hidle
  refine ⟨hf, ?_, ?_⟩ <;>
  · unfold draw
    rw [if_neg (not_lt.mpr hlen), if_pos hf.ge]

/-- Witness for the amended C1 with two stale points at idle time 350. -/
theorem C1_witness :
    (draw ⟨[⟨0, 0⟩, ⟨1, 0⟩], 0⟩ 350 800 600).1.points = [] ∧
    (draw ⟨[⟨0, 0⟩, ⟨1, 0⟩], 0⟩ 350 800 600).2 = [Cmd.clearRect 800 600] := by
  have h := C1_fade_one_empties ⟨[⟨0, 0⟩, ⟨1, 0⟩], 0⟩ 350 800 600 (by decide)
    (by norm_num [trailIdleTimeout, trailFadeDuration])
  exact ⟨h.2.1, h.2.2⟩

/-- Counterexample to claim C3 as stated: with no `trailCanvas` element
the startup code does not complete successfully. -/
theorem C3_counterexample : (initTrail none).isOk = false := rfl

/-- Claim C3 as amended: if the canvas element is absent at startup, the
module throws a TypeError (member access `getContext` on `null`) instead
of silently disabling the feature. -/
theorem C3_missing_canvas_throws :
    initTrail none =
      Except.error "TypeError: Cannot read properties of null (reading getContext)" := rfl

/-- Claim C8: a resize event sets the canvas dimensions to the new
viewport dimensions and leaves the trail buffer and activity clock
unchanged, so the next render works on the unaltered point buffer. -/
theorem C8_resize_preserves_trail (s : FullState) (vw vh : ℚ) :
    (resizeEvent s vw vh).canvas = ⟨vw, vh⟩ ∧
    (resizeEvent s vw vh).trail = s.trail ∧
    ∀ now : ℚ, draw (resizeEvent s vw vh).trail now vw vh = draw s.trail now vw vh :=
  ⟨rfl, rfl, fun _ => rfl⟩

/-- Claim C9: the mousemove handler sets the activity clock to now,
appends exactly the given point at the end of the buffer (evicting the
oldest point only when the bound is exceeded), and modifies no other
state. -/
theorem C9_record_effect (s : FullState) (now : ℚ) (p : Point) :
    (mousemoveEvent s now p).trail.lastMove = now ∧
    (mousemoveEvent s now p).canvas = s.canvas ∧
    (s.trail.points.length < maxTrail →
      (mousemoveEvent s now p).trail.points = s.trail.points ++ [p]) ∧
    (s.trail.points.length = maxTrail →
      (mousemoveEvent s now p).trail.points = s.trail.points.tail ++ [p]) := by
  refine ⟨rfl, rfl, ?_, ?_⟩
  · intro hlt
    show (record s.trail now p).points = _
    rw [record_points, if_neg (by omega)]
  · intro heq
    have hne : s.trail.points ≠ [] := by
      intro hnil
      rw [hnil] at heq
      simp [maxTrail] at heq
    show (record s.trail now p).points = _
    rw [record_points, if_pos (by omega), List.tail_append_of_ne_nil hne]

/-- Witness for C9: one record into an empty buffer, and one into a full
buffer of 30 points. -/
theorem C9_witness :
    (mousemoveEvent ⟨⟨800, 600⟩, ⟨[], 0⟩⟩ 5 ⟨1, 2⟩).trail.points = [⟨1, 2⟩] ∧
    (mousemoveEvent ⟨⟨800, 600⟩, ⟨List.replicate 30 ⟨0, 0⟩, 0⟩⟩ 7 ⟨1, 2⟩).trail.points =
      (List.replicate 30 (⟨0, 0⟩ : Point)).tail ++ [⟨1, 2⟩] := by
  constructor
  · have h := C9_record_effect ⟨⟨800, 600⟩, ⟨[], 0⟩⟩ 5 ⟨1, 2⟩
    simpa using h.2.2.1 (by simp [maxTrail])
  · have h := C9_record_effect ⟨⟨800, 600⟩, ⟨List.replicate 30 ⟨0, 0⟩, 0⟩⟩ 7 ⟨1, 2⟩
    exact h.2.2.2 (by simp [maxTrail])

end Trail
